import Mathlib

/-!
# Verification of the openchat provider protocol layer

Shallow embedding of the provider layer of the openchat repository
(common model in `internal/provider/provider.go`; the OpenAI, Anthropic
and Gemini adapters) together with proofs about the request translation,
the non-streaming response translation and the SSE streaming parsers.

Go `int` fields are modelled as `Int`, `float64` as `Rat`, Go strings as
`String`.  HTTP and JSON decoding are modelled at the decoded level: a
response carries its status code and the result of decoding its body
(`Option` of the vendor envelope, `none` when `json.Unmarshal` fails);
an SSE body is a list of already-framed lines whose `data:` payload is
either the literal `[DONE]`, a decoded chunk, or a JSON-decode failure.
The `onDelta` callback is modelled by returning the list of fragments in
the order the callback is invoked.
-/

/-- Embeds `Role` constant from provider.go. -/
def RoleSystem : String := "system"

/-- Embeds `Role` constant from provider.go. -/
def RoleUser : String := "user"

/-- Embeds `Role` constant from provider.go. -/
def RoleAssistant : String := "assistant"

/-- Embeds `Role` constant from provider.go. -/
def RoleTool : String := "tool"

/-- Embeds `provider.Message`: role (a string in Go) plus text content. -/
structure Message where
  role : String
  content : String
deriving DecidableEq, Repr

/-- Embeds `provider.ChatRequest`. -/
structure ChatRequest where
  model : String
  messages : List Message
  maxTokens : Int
  temperature : Rat
  stream : Bool
deriving DecidableEq, Repr

/-- Embeds `provider.Usage`. -/
structure Usage where
  promptTokens : Int
  completionTokens : Int
  totalTokens : Int
deriving DecidableEq, Repr

/-- Embeds `provider.ChatResponse`. -/
structure ChatResponse where
  content : String
  model : String
  finishReason : String
  usage : Usage
deriving DecidableEq, Repr

/-- The error values an adapter call can produce.  The first five model
the named sentinel errors of provider.go (`ErrNoAPIKey`,
`ErrInvalidResponse`, `ErrRateLimited`, `ErrContextCanceled`,
`ErrStreamClosed` is unused by the adapters); the rest model the
`fmt.Errorf` families: `apiError m` is `"API error: <m>"`,
`apiStatusError s` is `"API error: status <s>"`, `requestFailed` a
non-cancellation `client.Do` failure, `readFailed` an `io.ReadAll`
failure, `parseFailed` a `json.Unmarshal` failure of a 2xx body, and
`streamFailed` a `scanner.Err()` after the read loop. -/
inductive ProviderError where
  | noAPIKey
  | invalidResponse
  | rateLimited
  | contextCanceled
  | apiError (msg : String)
  | apiStatusError (status : Nat)
  | requestFailed
  | readFailed
  | parseFailed
  | streamFailed
deriving DecidableEq, Repr

/-- Result of a Go call returning `(α, error)`. -/
inductive PResult (α : Type) where
  | ok (val : α)
  | fail (e : ProviderError)
deriving DecidableEq, Repr

/-- Outcome of `client.Do`: success, failure with the context canceled
(`ctx.Err() != nil`), or failure for any other reason. -/
inductive DoOutcome where
  | ok
  | failCanceled
  | failOther
deriving DecidableEq, Repr

/-- The environment of one non-streaming HTTP exchange, at the decoded
level.  `decoded` is the result of `json.Unmarshal` of the 2xx body into
the vendor success envelope (`none` = decode failure); `errMsg` is the
human-readable message extracted by decoding the same body into the
vendor error envelope on a non-2xx status (`none` = that decode fails or
yields no error object). -/
structure SendWire (ρ : Type) where
  doResult : DoOutcome
  readErr : Bool
  status : Nat
  decoded : Option ρ
  errMsg : Option String
deriving DecidableEq, Repr

/-- Output of a modelled `Send`: the wire request that was marshalled
and POSTed (`none` when the call bailed out before any network I/O) and
the Go return value. -/
structure SendResult (W : Type) where
  issued : Option W
  result : PResult ChatResponse
deriving DecidableEq, Repr

/-- The payload of an SSE `data:` line, at the decoded level. -/
inductive SSEData (χ : Type) where
  | done
  | chunk (c : χ)
  | malformed
deriving DecidableEq, Repr

/-- One line of an SSE response body as the per-line scanner sees it. -/
inductive SSELine (χ : Type) where
  | blank
  | comment
  | eventLine (t : String)
  | dataLine (d : SSEData χ)
  | other
deriving DecidableEq, Repr

/-- The environment of one streaming HTTP exchange.  `lines` is the
sequence the line scanner delivers; `cancelAt = some n` means the
context's cancellation becomes observable at the top of loop iteration
`n` (0-based); `readErr` means `scanner.Err()` reports a transport
failure once the lines are exhausted. -/
structure StreamWire (L : Type) where
  doResult : DoOutcome
  status : Nat
  errMsg : Option String
  lines : List L
  cancelAt : Option Nat
  readErr : Bool
deriving DecidableEq, Repr

/-- Output of a modelled `Stream`: the issued wire request (`none` when
the call bailed out before any network I/O), the fragments passed to
`onDelta` in invocation order, and the Go return value. -/
structure StreamResult (W : Type) where
  issued : Option W
  frags : List String
  result : PResult Unit
deriving DecidableEq, Repr

/-- How the per-line read loop ended: all lines consumed, an explicit
`break`, or the cancellation check fired. -/
inductive LoopExit where
  | finished
  | broke
  | canceled
deriving DecidableEq, Repr

/-- State of the read loop when it ends. -/
structure LoopResult (σ : Type) where
  frags : List String
  st : σ
  exit : LoopExit
deriving DecidableEq, Repr

/-- The shared skeleton of the three adapters' SSE read loops
(`for scanner.Scan() { select ctx.Done ...; <per-line handling> }`).
`step` is the per-line handling: it returns the fragments forwarded for
that line, the updated parser state, and whether the line `break`s the
loop.  The cancellation check runs at the top of each iteration, before
the line is handled. -/
def sseLoop {L σ : Type} (step : L → σ → List String × σ × Bool) :
    Option Nat → List L → σ → LoopResult σ
  | _, [], st => ⟨[], st, .finished⟩
  | c, l :: ls, st =>
    match c with
    | some 0 => ⟨[], st, .canceled⟩
    | _ =>
      match step l st with
      | (fs, st1, true) => ⟨fs, st1, .broke⟩
      | (fs, st1, false) =>
        let r := sseLoop step (c.map (· - 1)) ls st1
        ⟨fs ++ r.frags, r.st, r.exit⟩

/-- Non-2xx, non-429 handling shared by all six calls: surface the
decoded vendor message when the error envelope decodes, otherwise
`"API error: status <code>"`. -/
def apiErrorOf (errMsg : Option String) (status : Nat) : ProviderError :=
  match errMsg with
  | some m => .apiError m
  | none => .apiStatusError status

/-! ## OpenAI adapter (internal/provider, file packaged as internal/store/migrations.go) -/

/-- The `OpenAI` provider struct (apiKey; baseURL and client are I/O
plumbing outside the model). -/
structure OpenAI where
  apiKey : String
deriving DecidableEq, Repr

/-- Embeds `openAIMessage`. -/
structure openAIMessage where
  role : String
  content : String
deriving DecidableEq, Repr

/-- Embeds `openAIRequest` (the JSON body POSTed to `/chat/completions`). -/
structure openAIRequest where
  model : String
  messages : List openAIMessage
  maxTokens : Int
  temperature : Rat
  stream : Bool
deriving DecidableEq, Repr

/-- One element of `openAIResponse.Choices` (the unused `Index` wire
field is omitted). -/
structure openAIChoice where
  message : openAIMessage
  finishReason : String
deriving DecidableEq, Repr

/-- Embeds `openAIResponse.Usage`. -/
structure openAIUsage where
  promptTokens : Int
  completionTokens : Int
  totalTokens : Int
deriving DecidableEq, Repr

/-- Embeds `openAIResponse` (ID/Object/Created omitted; the `Error` field is
modelled by the `errMsg` channel of `SendWire`). -/
structure openAIResponse where
  model : String
  choices : List openAIChoice
  usage : openAIUsage
deriving DecidableEq, Repr

/-- The delta choice of `openAIStreamResponse` (role/finish_reason wire
fields unused by the parser are omitted apart from the delta content). -/
structure openAIDeltaChoice where
  deltaContent : String
  finishReason : String
deriving DecidableEq, Repr

/-- Embeds `openAIStreamResponse`. -/
structure openAIStreamChunk where
  choices : List openAIDeltaChoice
deriving DecidableEq, Repr

/-- The Common-Model-to-wire translation inlined at the top of both
`OpenAI.Send` and `OpenAI.Stream`: every message keeps its role string
verbatim. -/
def OpenAI.buildRequest (req : ChatRequest) (stream : Bool) : openAIRequest :=
  { model := req.model
    messages := req.messages.map (fun m => ⟨m.role, m.content⟩)
    maxTokens := req.maxTokens
    temperature := req.temperature
    stream := stream }

/-- Embeds `OpenAI.Send`: key check, POST, `io.ReadAll`, 429 check, non-200
error envelope, decode, empty-choices check, translate. -/
def OpenAI.Send (o : OpenAI) (req : ChatRequest) (w : SendWire openAIResponse) :
    SendResult openAIRequest :=
  if o.apiKey = "" then ⟨none, .fail .noAPIKey⟩
  else
    let wireReq := OpenAI.buildRequest req false
    match w.doResult with
    | .failCanceled => ⟨some wireReq, .fail .contextCanceled⟩
    | .failOther => ⟨some wireReq, .fail .requestFailed⟩
    | .ok =>
      if w.readErr then ⟨some wireReq, .fail .readFailed⟩
      else if w.status = 429 then ⟨some wireReq, .fail .rateLimited⟩
      else if w.status ≠ 200 then ⟨some wireReq, .fail (apiErrorOf w.errMsg w.status)⟩
      else
        match w.decoded with
        | none => ⟨some wireReq, .fail .parseFailed⟩
        | some r =>
          match r.choices with
          | [] => ⟨some wireReq, .fail .invalidResponse⟩
          | c :: _ =>
            ⟨some wireReq, .ok ⟨c.message.content, r.model, c.finishReason,
              ⟨r.usage.promptTokens, r.usage.completionTokens, r.usage.totalTokens⟩⟩⟩

/-- Per-line handling of `OpenAI.Stream`: skip blank/comment/non-data
lines, `break` on `[DONE]`, skip JSON-decode failures, forward the first
choice's delta content when non-empty. -/
def openAIStreamStep (l : SSELine openAIStreamChunk) (st : Unit) :
    List String × Unit × Bool :=
  match l with
  | .blank => ([], st, false)
  | .comment => ([], st, false)
  | .eventLine _ => ([], st, false)
  | .other => ([], st, false)
  | .dataLine .done => ([], st, true)
  | .dataLine .malformed => ([], st, false)
  | .dataLine (.chunk c) =>
    match c.choices with
    | [] => ([], st, false)
    | ch :: _ => if ch.deltaContent = "" then ([], st, false) else ([ch.deltaContent], st, false)

/-- Embeds `OpenAI.Stream`: key check, POST, 429 check, non-200 error envelope,
then the SSE read loop; a `scanner.Err()` after exhausting the lines is
a stream failure, and an early `break` never reaches that failure. -/
def OpenAI.Stream (o : OpenAI) (req : ChatRequest) (w : StreamWire (SSELine openAIStreamChunk)) :
    StreamResult openAIRequest :=
  if o.apiKey = "" then ⟨none, [], .fail .noAPIKey⟩
  else
    let wireReq := OpenAI.buildRequest req true
    match w.doResult with
    | .failCanceled => ⟨some wireReq, [], .fail .contextCanceled⟩
    | .failOther => ⟨some wireReq, [], .fail .requestFailed⟩
    | .ok =>
      if w.status = 429 then ⟨some wireReq, [], .fail .rateLimited⟩
      else if w.status ≠ 200 then ⟨some wireReq, [], .fail (apiErrorOf w.errMsg w.status)⟩
      else
        let r := sseLoop openAIStreamStep w.cancelAt w.lines ()
        match r.exit with
        | .canceled => ⟨some wireReq, r.frags, .fail .contextCanceled⟩
        | .broke => ⟨some wireReq, r.frags, .ok ()⟩
        | .finished =>
          ⟨some wireReq, r.frags, if w.readErr then .fail .streamFailed else .ok ()⟩

/-! ## Anthropic adapter (internal/provider, file packaged as src/unnamed/part_002) -/

/-- The `Anthropic` provider struct. -/
structure Anthropic where
  apiKey : String
deriving DecidableEq, Repr

/-- Embeds `anthropicMessage`. -/
structure anthropicMessage where
  role : String
  content : String
deriving DecidableEq, Repr

/-- Embeds `anthropicRequest` (the JSON body POSTed to `/messages`). -/
structure anthropicRequest where
  model : String
  messages : List anthropicMessage
  system : String
  maxTokens : Int
  temperature : Rat
  stream : Bool
deriving DecidableEq, Repr

/-- One element of `anthropicResponse.Content`. -/
structure anthropicContentBlock where
  type : String
  text : String
deriving DecidableEq, Repr

/-- Embeds `anthropicResponse.Usage`. -/
structure anthropicUsage where
  inputTokens : Int
  outputTokens : Int
deriving DecidableEq, Repr

/-- Embeds `anthropicResponse` (ID/Type/Role omitted; the `Error` field is
modelled by the `errMsg` channel of `SendWire`). -/
structure anthropicResponse where
  model : String
  content : List anthropicContentBlock
  stopReason : String
  usage : anthropicUsage
deriving DecidableEq, Repr

/-- Embeds `anthropicStreamEvent.Delta`. -/
structure anthropicDelta where
  type : String
  text : String
deriving DecidableEq, Repr

/-- Embeds `anthropicStreamEvent` (Index/ContentBlock/Message wire fields are
unused by the parser and omitted). -/
structure anthropicStreamEvent where
  type : String
  delta : Option anthropicDelta
deriving DecidableEq, Repr

/-- The message-conversion loop inlined at the top of both
`Anthropic.Send` and `Anthropic.Stream`: each system-role message
OVERWRITES the running `systemPrompt` variable and is dropped from the
list; a `tool` role is remapped to `user`; other roles pass through.
Returns the final `systemPrompt` and the converted message list. -/
def anthropicExtract : List Message → String → String × List anthropicMessage
  | [], sys => (sys, [])
  | m :: rest, sys =>
    if m.role = RoleSystem then anthropicExtract rest m.content
    else
      let role := if m.role = "tool" then "user" else m.role
      let r := anthropicExtract rest sys
      (r.1, ⟨role, m.content⟩ :: r.2)

/-- The Common-Model-to-wire translation shared (inlined verbatim) by
`Anthropic.Send` and `Anthropic.Stream`: extract the system prompt,
convert the messages, and default the required `max_tokens` to 4096 when
the caller left it 0. -/
def Anthropic.buildRequest (req : ChatRequest) (stream : Bool) : anthropicRequest :=
  let e := anthropicExtract req.messages ""
  { model := req.model
    messages := e.2
    system := e.1
    maxTokens := if req.maxTokens = 0 then 4096 else req.maxTokens
    temperature := req.temperature
    stream := stream }

/-- Embeds `Anthropic.Send`: key check, POST, `io.ReadAll`, 429 check, non-200
error envelope, decode, empty-content check, concatenate the text-typed
blocks, and report usage with the total computed as input + output. -/
def Anthropic.Send (a : Anthropic) (req : ChatRequest) (w : SendWire anthropicResponse) :
    SendResult anthropicRequest :=
  if a.apiKey = "" then ⟨none, .fail .noAPIKey⟩
  else
    let wireReq := Anthropic.buildRequest req false
    match w.doResult with
    | .failCanceled => ⟨some wireReq, .fail .contextCanceled⟩
    | .failOther => ⟨some wireReq, .fail .requestFailed⟩
    | .ok =>
      if w.readErr then ⟨some wireReq, .fail .readFailed⟩
      else if w.status = 429 then ⟨some wireReq, .fail .rateLimited⟩
      else if w.status ≠ 200 then ⟨some wireReq, .fail (apiErrorOf w.errMsg w.status)⟩
      else
        match w.decoded with
        | none => ⟨some wireReq, .fail .parseFailed⟩
        | some r =>
          if r.content = [] then ⟨some wireReq, .fail .invalidResponse⟩
          else
            let text := String.join (r.content.map
              (fun c => if c.type = "text" then c.text else ""))
            ⟨some wireReq, .ok ⟨text, r.model, r.stopReason,
              ⟨r.usage.inputTokens, r.usage.outputTokens,
               r.usage.inputTokens + r.usage.outputTokens⟩⟩⟩

/-- Per-line handling of `Anthropic.Stream`: skip blank lines, `break`
on `event: message_stop`, skip other `event:` lines and non-data lines,
skip JSON-decode failures (including the non-JSON `[DONE]` payload),
forward the delta text of `content_block_delta` events whose delta is
text-typed. -/
def anthropicStreamStep (l : SSELine anthropicStreamEvent) (st : Unit) :
    List String × Unit × Bool :=
  match l with
  | .blank => ([], st, false)
  | .comment => ([], st, false)
  | .eventLine t => ([], st, t = "message_stop")
  | .other => ([], st, false)
  | .dataLine .done => ([], st, false)
  | .dataLine .malformed => ([], st, false)
  | .dataLine (.chunk e) =>
    match e.delta with
    | none => ([], st, false)
    | some d =>
      if e.type = "content_block_delta" ∧ d.type = "text_delta" then ([d.text], st, false)
      else ([], st, false)

/-- Embeds `Anthropic.Stream`: key check, POST, 429 check, non-200 error
envelope, then the SSE read loop. -/
def Anthropic.Stream (a : Anthropic) (req : ChatRequest)
    (w : StreamWire (SSELine anthropicStreamEvent)) : StreamResult anthropicRequest :=
  if a.apiKey = "" then ⟨none, [], .fail .noAPIKey⟩
  else
    let wireReq := Anthropic.buildRequest req true
    match w.doResult with
    | .failCanceled => ⟨some wireReq, [], .fail .contextCanceled⟩
    | .failOther => ⟨some wireReq, [], .fail .requestFailed⟩
    | .ok =>
      if w.status = 429 then ⟨some wireReq, [], .fail .rateLimited⟩
      else if w.status ≠ 200 then ⟨some wireReq, [], .fail (apiErrorOf w.errMsg w.status)⟩
      else
        let r := sseLoop anthropicStreamStep w.cancelAt w.lines ()
        match r.exit with
        | .canceled => ⟨some wireReq, r.frags, .fail .contextCanceled⟩
        | .broke => ⟨some wireReq, r.frags, .ok ()⟩
        | .finished =>
          ⟨some wireReq, r.frags, if w.readErr then .fail .streamFailed else .ok ()⟩

/-! ## Gemini adapter (internal/provider, file packaged after the tests in internal/sanitize/sanitize_test.go) -/

/-- The `Gemini` provider struct. -/
structure Gemini where
  apiKey : String
  enableSearch : Bool
  enableThought : Bool
deriving DecidableEq, Repr

/-- Embeds `geminiPart`: `Text` plus the optional `Thought` pointer, flattened
to the thought's text (`geminiThought` holds only a `Text` field). -/
structure geminiPart where
  text : String
  thought : Option String
deriving DecidableEq, Repr

/-- Embeds `geminiContent`. -/
structure geminiContent where
  role : String
  parts : List geminiPart
deriving DecidableEq, Repr

/-- Embeds `geminiThinkingConfig`: a token budget (Gemini 2.x) or a named level
(Gemini 3.x); the Go zero values stand for the omitted field. -/
structure geminiThinkingConfig where
  thinkingBudget : Int
  thinkingLevel : String
deriving DecidableEq, Repr

/-- Embeds `geminiGenerationConfig` (Go zero values stand for omitted fields). -/
structure geminiGenerationConfig where
  temperature : Rat
  maxOutputTokens : Int
  thinkingConfig : Option geminiThinkingConfig
deriving DecidableEq, Repr

/-- Embeds `geminiTool`: presence of the empty `googleSearch` object. -/
structure geminiTool where
  googleSearch : Bool
deriving DecidableEq, Repr

/-- Embeds `geminiRequest` (the JSON body POSTed to `:generateContent` /
`:streamGenerateContent`). -/
structure geminiRequest where
  contents : List geminiContent
  systemInstruction : Option geminiContent
  generationConfig : Option geminiGenerationConfig
  tools : List geminiTool
deriving DecidableEq, Repr

/-- One `web` entry of `groundingChunks`. -/
structure geminiWeb where
  title : String
  uri : String
deriving DecidableEq, Repr

/-- Embeds `geminiGroundingMetadata` (`searchEntryPoint` is unused by the
adapter and omitted); each chunk's `Web` pointer may be nil. -/
structure geminiGroundingMetadata where
  groundingChunks : List (Option geminiWeb)
deriving DecidableEq, Repr

/-- Embeds `geminiCandidate`. -/
structure geminiCandidate where
  content : geminiContent
  finishReason : String
  groundingMetadata : Option geminiGroundingMetadata
deriving DecidableEq, Repr

/-- Embeds `geminiUsageMetadata` (`thoughtsTokenCount` is unused and omitted). -/
structure geminiUsageMetadata where
  promptTokenCount : Int
  candidatesTokenCount : Int
  totalTokenCount : Int
deriving DecidableEq, Repr

/-- Embeds `geminiResponse` (the `Error` field is modelled by the `errMsg`
channel of `SendWire` / `StreamWire`). -/
structure geminiResponse where
  candidates : List geminiCandidate
  usageMetadata : Option geminiUsageMetadata
deriving DecidableEq, Repr

/-- Tests whether `pat` occurs as a contiguous run somewhere in `l`. -/
def listIsInfix (pat : List Char) : List Char → Bool
  | [] => pat.isEmpty
  | c :: rest => pat.isPrefixOf (c :: rest) || listIsInfix pat rest

/-- Go `strings.Contains(s, pat)`: `pat` occurs as a contiguous
substring of `s`. -/
def strContains (s pat : String) : Bool :=
  listIsInfix pat.toList s.toList

/-- Embeds `isThinkingModel`: the model name contains one of the
thinking-capable patterns. -/
def isThinkingModel (model : String) : Bool :=
  ["gemini-3-pro", "gemini-3-flash", "gemini-2.5-pro", "gemini-2.5-flash",
   "gemini-2.0-flash-thinking"].any (fun tm => strContains model tm)

/-- Embeds `isGemini3Model`: the model name contains `gemini-3`. -/
def isGemini3Model (model : String) : Bool :=
  strContains model "gemini-3"

/-- The message-conversion loop of `Gemini.buildRequest`: `assistant`
is renamed `model`, every other non-system role becomes `user`, and each
system-role message OVERWRITES the single `systemInstruction` (last one
wins) and is dropped from the turn list. -/
def geminiConvert : List Message → Option geminiContent →
    List geminiContent × Option geminiContent
  | [], sysInstr => ([], sysInstr)
  | m :: rest, sysInstr =>
    if m.role = RoleSystem then
      geminiConvert rest (some ⟨"", [⟨m.content, none⟩]⟩)
    else
      let role := if m.role = RoleAssistant then "model" else "user"
      let r := geminiConvert rest sysInstr
      (⟨role, [⟨m.content, none⟩]⟩ :: r.1, r.2)

/-- Embeds `Gemini.buildRequest`: convert the messages, populate the generation
config from temperature / max tokens, attach a thinkingConfig for
thinking-capable models when thinking is enabled (a named `medium` level
for Gemini 3 names, an 8192-token budget otherwise), attach the config
only when any of its fields is set, and add the Google Search tool when
search is enabled. -/
def Gemini.buildRequest (g : Gemini) (req : ChatRequest) : geminiRequest :=
  let conv := geminiConvert req.messages none
  let cfg0 : geminiGenerationConfig := ⟨0, 0, none⟩
  let cfg1 := if req.temperature > 0 then { cfg0 with temperature := req.temperature } else cfg0
  let cfg2 := if req.maxTokens > 0 then { cfg1 with maxOutputTokens := req.maxTokens } else cfg1
  let cfg3 :=
    if g.enableThought ∧ isThinkingModel req.model then
      if isGemini3Model req.model then
        { cfg2 with thinkingConfig := some ⟨0, "medium"⟩ }
      else
        { cfg2 with thinkingConfig := some ⟨8192, ""⟩ }
    else cfg2
  { contents := conv.1
    systemInstruction := conv.2
    generationConfig :=
      if cfg3.temperature > 0 ∨ cfg3.maxOutputTokens > 0 ∨ cfg3.thinkingConfig.isSome
      then some cfg3 else none
    tools := if g.enableSearch then [⟨true⟩] else [] }

/-- The thinkingConfig carried by a built request, reaching through the
optional generationConfig. -/
def thinkingConfigOf (r : geminiRequest) : Option geminiThinkingConfig :=
  match r.generationConfig with
  | none => none
  | some c => c.thinkingConfig

/-- The content-builder loop of `Gemini.Send` (lines 521-539 of the
source): walks the first candidate's parts carrying the `hasThinking`
flag; a thought part opens `<thinking>\n` if not already open and writes
the thought text plus a newline; a non-empty text part closes an open
block with `</thinking>\n\n` and writes the text; after the loop an
open block is closed.  Returns the written pieces in order. -/
def geminiExtractParts : List geminiPart → Bool → List String
  | [], has => if has then ["</thinking>\n\n"] else []
  | p :: ps, has =>
    match p.thought with
    | some t =>
      (if has then ([] : List String) else ["<thinking>\n"]) ++ t :: "\n" :: geminiExtractParts ps true
    | none =>
      if p.text = "" then geminiExtractParts ps has
      else
        (if has then ["</thinking>\n\n"] else ([] : List String)) ++ p.text :: geminiExtractParts ps false

/-- A single Markdown source link written for a grounding chunk. -/
def geminiSourceFrag (w : geminiWeb) : String :=
  "- [" ++ w.title ++ "](" ++ w.uri ++ ")\n"

/-- The Sources block `Gemini.Send` appends when the first candidate
carries grounding metadata with a non-empty chunk list (chunks with a
nil `web` pointer are skipped, but still count for the non-empty
test). -/
def geminiSourcesStr : Option geminiGroundingMetadata → String
  | none => ""
  | some m =>
    if m.groundingChunks = [] then ""
    else
      "\n\n---\n**Sources:**\n" ++
        String.join (m.groundingChunks.map
          (fun oc => match oc with
            | some w => geminiSourceFrag w
            | none => ""))

/-- The `Usage` reported by `Gemini.Send`: zero-valued when the vendor
sent no usage metadata, otherwise the vendor counts verbatim (including
the vendor-supplied total). -/
def geminiUsageOf : Option geminiUsageMetadata → Usage
  | none => ⟨0, 0, 0⟩
  | some u => ⟨u.promptTokenCount, u.candidatesTokenCount, u.totalTokenCount⟩

/-- Embeds `Gemini.Send`: key check, POST (credential as query parameter),
`io.ReadAll`, 429 check, non-200 error envelope, decode, empty-candidate
check, build the content from the first candidate's parts followed by
the Sources block, and translate usage. -/
def Gemini.Send (g : Gemini) (req : ChatRequest) (w : SendWire geminiResponse) :
    SendResult geminiRequest :=
  if g.apiKey = "" then ⟨none, .fail .noAPIKey⟩
  else
    let wireReq := Gemini.buildRequest g req
    match w.doResult with
    | .failCanceled => ⟨some wireReq, .fail .contextCanceled⟩
    | .failOther => ⟨some wireReq, .fail .requestFailed⟩
    | .ok =>
      if w.readErr then ⟨some wireReq, .fail .readFailed⟩
      else if w.status = 429 then ⟨some wireReq, .fail .rateLimited⟩
      else if w.status ≠ 200 then ⟨some wireReq, .fail (apiErrorOf w.errMsg w.status)⟩
      else
        match w.decoded with
        | none => ⟨some wireReq, .fail .parseFailed⟩
        | some r =>
          match r.candidates with
          | [] => ⟨some wireReq, .fail .invalidResponse⟩
          | cand :: _ =>
            ⟨some wireReq, .ok
              ⟨String.join (geminiExtractParts cand.content.parts false) ++
                 geminiSourcesStr cand.groundingMetadata,
               req.model, cand.finishReason, geminiUsageOf r.usageMetadata⟩⟩

/-- The inner parts loop of `Gemini.Stream` (lines 660-674 of the
source): a thought part forwards the `<thinking>\n` marker when not
already inside a thinking span and then the thought text verbatim; a
non-empty text part forwards the `\n</thinking>\n\n` close marker when
inside a span and then the text.  Returns the forwarded fragments and
the updated `inThinking` flag. -/
def geminiStreamParts : List geminiPart → Bool → List String × Bool
  | [], think => ([], think)
  | p :: ps, think =>
    match p.thought with
    | some t =>
      let r := geminiStreamParts ps true
      ((if think then ([] : List String) else ["<thinking>\n"]) ++ t :: r.1, r.2)
    | none =>
      if p.text = "" then geminiStreamParts ps think
      else
        let r := geminiStreamParts ps false
        ((if think then ["\n</thinking>\n\n"] else ([] : List String)) ++ p.text :: r.1, r.2)

/-- Per-line handling of `Gemini.Stream`: skip blank/non-data lines and
JSON-decode failures; for a decoded chunk with at least one candidate,
first append the candidate's non-nil grounding chunks to the buffered
source list, then run the parts loop on the first candidate's parts.
The Gemini stream has no terminal sentinel, so no line breaks the
loop. -/
def geminiStreamStep (l : SSELine geminiResponse) (st : Bool × List geminiWeb) :
    List String × (Bool × List geminiWeb) × Bool :=
  match l with
  | .dataLine (.chunk r) =>
    match r.candidates with
    | [] => ([], st, false)
    | cand :: _ =>
      let ground1 := st.2 ++ (match cand.groundingMetadata with
        | some m => m.groundingChunks.filterMap id
        | none => [])
      let pr := geminiStreamParts cand.content.parts st.1
      (pr.1, (pr.2, ground1), false)
  | _ => ([], st, false)

/-- The fragments `Gemini.Stream` forwards after its read loop ends
normally: the close marker when still inside a thinking span, then the
buffered Sources block (header plus one link per collected chunk) when
any grounding was observed. -/
def geminiFlushFrags (st : Bool × List geminiWeb) : List String :=
  (if st.1 then ["\n</thinking>\n\n"] else []) ++
    (if st.2 = [] then [] else "\n\n---\n**Sources:**\n" :: st.2.map geminiSourceFrag)

/-- Embeds `Gemini.Stream`: key check, POST, 429 check, non-200 error envelope,
the SSE read loop threading the `inThinking` flag and the grounding
buffer, then (unless canceled) the flush of the close marker and the
Sources block before the `scanner.Err()` check. -/
def Gemini.Stream (g : Gemini) (req : ChatRequest) (w : StreamWire (SSELine geminiResponse)) :
    StreamResult geminiRequest :=
  if g.apiKey = "" then ⟨none, [], .fail .noAPIKey⟩
  else
    let wireReq := Gemini.buildRequest g req
    match w.doResult with
    | .failCanceled => ⟨some wireReq, [], .fail .contextCanceled⟩
    | .failOther => ⟨some wireReq, [], .fail .requestFailed⟩
    | .ok =>
      if w.status = 429 then ⟨some wireReq, [], .fail .rateLimited⟩
      else if w.status ≠ 200 then ⟨some wireReq, [], .fail (apiErrorOf w.errMsg w.status)⟩
      else
        let r := sseLoop geminiStreamStep w.cancelAt w.lines (false, [])
        match r.exit with
        | .canceled => ⟨some wireReq, r.frags, .fail .contextCanceled⟩
        | _ =>
          ⟨some wireReq, r.frags ++ geminiFlushFrags r.st,
           if w.readErr then .fail .streamFailed else .ok ()⟩

/-! ## Specification-side descriptions

Definitions in this section are written from the spec's words (or from
the amended claims) and are compared with the source-derived functions
above by refinement theorems. -/

/-- Spec-side description of Vendor B's system accumulation as the code
actually behaves: the last system-role message wins (the fold overwrites
the variable), with `dflt` when there is none. -/
def lastSystemContent (msgs : List Message) (dflt : String) : String :=
  (((msgs.filter (fun m => m.role = RoleSystem)).map Message.content).getLast?).getD dflt

mutual

/-- Spec-side rendering of `Gemini.Send`'s flattening, per maximal run
of thought parts: outside a thinking block, a non-empty text part is
written verbatim and a thought part opens `<thinking>\n` followed by the
thought text and a newline. -/
def geminiSendRender : List geminiPart → List String
  | [] => []
  | p :: ps =>
    match p.thought with
    | some t => "<thinking>\n" :: t :: "\n" :: geminiSendRenderThink ps
    | none =>
      if p.text = "" then geminiSendRender ps else p.text :: geminiSendRender ps

/-- Inside an open thinking block: further thought texts are written
each followed by a newline; the first non-empty text part closes the
block with `</thinking>\n\n` before its text; the block is also closed
at the end of the parts. -/
def geminiSendRenderThink : List geminiPart → List String
  | [] => ["</thinking>\n\n"]
  | p :: ps =>
    match p.thought with
    | some t => t :: "\n" :: geminiSendRenderThink ps
    | none =>
      if p.text = "" then geminiSendRenderThink ps
      else "</thinking>\n\n" :: p.text :: geminiSendRender ps

end

mutual

/-- Spec-side rendering of `Gemini.Stream`'s fragment sequence, per
maximal run of thought parts: outside a thinking span, a non-empty text
part is forwarded verbatim and a thought part forwards the
`<thinking>\n` marker and then the thought text. -/
def geminiStreamRender : List geminiPart → List String
  | [] => []
  | p :: ps =>
    match p.thought with
    | some t => "<thinking>\n" :: t :: geminiStreamRenderThink ps
    | none =>
      if p.text = "" then geminiStreamRender ps else p.text :: geminiStreamRender ps

/-- Inside an open thinking span: further thought texts are forwarded
verbatim; the first non-empty text part forwards the `\n</thinking>\n\n`
close marker before its text; the close marker is also forwarded as a
flush step when the stream ends inside the span. -/
def geminiStreamRenderThink : List geminiPart → List String
  | [] => ["\n</thinking>\n\n"]
  | p :: ps =>
    match p.thought with
    | some t => t :: geminiStreamRenderThink ps
    | none =>
      if p.text = "" then geminiStreamRenderThink ps
      else "\n</thinking>\n\n" :: p.text :: geminiStreamRender ps

end

/-- The parts of the first candidate a decoded stream line contributes
(nothing for any other kind of line). -/
def geminiLineParts : SSELine geminiResponse → List geminiPart
  | .dataLine (.chunk r) =>
    match r.candidates with
    | [] => []
    | cand :: _ => cand.content.parts
  | _ => []

/-- All parts the stream's lines contribute, in order. -/
def geminiFlattenParts : List (SSELine geminiResponse) → List geminiPart
  | [] => []
  | l :: ls => geminiLineParts l ++ geminiFlattenParts ls

/-- The non-nil grounding chunks the first candidate of a decoded stream
line contributes. -/
def geminiLineGround : SSELine geminiResponse → List geminiWeb
  | .dataLine (.chunk r) =>
    match r.candidates with
    | [] => []
    | cand :: _ =>
      match cand.groundingMetadata with
      | some m => m.groundingChunks.filterMap id
      | none => []
  | _ => []

/-- All grounding chunks the stream's lines contribute, in order. -/
def geminiCollectGround : List (SSELine geminiResponse) → List geminiWeb
  | [] => []
  | l :: ls => geminiLineGround l ++ geminiCollectGround ls

/-- Number of (possibly overlapping) occurrences of `pat` in `l`. -/
def countOccs (pat : List Char) : List Char → Nat
  | [] => 0
  | c :: rest => (if pat.isPrefixOf (c :: rest) then 1 else 0) + countOccs pat rest

/-- The line is not a `content_block_delta`/`text_delta` event carrying
empty delta text. -/
def anthropicLineClean (l : SSELine anthropicStreamEvent) : Bool :=
  match l with
  | .dataLine (.chunk e) =>
    match e.delta with
    | some d => !(e.type = "content_block_delta" ∧ d.type = "text_delta" ∧ d.text = "" : Bool)
    | none => true
  | _ => true

/-- Every `content_block_delta`/`text_delta` event among the lines
carries non-empty delta text. -/
def anthropicCleanLines (ls : List (SSELine anthropicStreamEvent)) : Bool :=
  ls.all anthropicLineClean

/-- The part is not a thought part with empty thought text. -/
def geminiPartClean (p : geminiPart) : Bool :=
  match p.thought with
  | some t => !(t = "" : Bool)
  | none => true

/-- No thought part of the line's first candidate carries empty thought
text. -/
def geminiLineClean (l : SSELine geminiResponse) : Bool :=
  (geminiLineParts l).all geminiPartClean

/-- Every thought part among the lines carries non-empty thought
text. -/
def geminiCleanLines (ls : List (SSELine geminiResponse)) : Bool :=
  ls.all geminiLineClean

/-! ## Helper lemmas about the shared read-loop skeleton -/

theorem sseLoop_nil {L σ : Type} (step : L → σ → List String × σ × Bool)
    (c : Option Nat) (st : σ) : sseLoop step c [] st = ⟨[], st, .finished⟩ := by
  cases c <;> rfl

theorem sseLoop_some_zero {L σ : Type} (step : L → σ → List String × σ × Bool)
    (l : L) (ls : List L) (st : σ) :
    sseLoop step (some 0) (l :: ls) st = ⟨[], st, .canceled⟩ := rfl

theorem sseLoop_cons_false {L σ : Type} (step : L → σ → List String × σ × Bool)
    (c : Option Nat) (l : L) (ls : List L) (st : σ) (fs : List String) (st1 : σ)
    (hstep : step l st = (fs, st1, false)) (hc : c ≠ some 0) :
    sseLoop step c (l :: ls) st =
      ⟨fs ++ (sseLoop step (c.map (· - 1)) ls st1).frags,
       (sseLoop step (c.map (· - 1)) ls st1).st,
       (sseLoop step (c.map (· - 1)) ls st1).exit⟩ := by
  match c with
  | none => simp [sseLoop, hstep]
  | some 0 => exact absurd rfl hc
  | some (n + 1) => simp [sseLoop, hstep]

theorem sseLoop_cons_true {L σ : Type} (step : L → σ → List String × σ × Bool)
    (c : Option Nat) (l : L) (ls : List L) (st : σ) (fs : List String) (st1 : σ)
    (hstep : step l st = (fs, st1, true)) (hc : c ≠ some 0) :
    sseLoop step c (l :: ls) st = ⟨fs, st1, .broke⟩ := by
  match c with
  | none => simp [sseLoop, hstep]
  | some 0 => exact absurd rfl hc
  | some (n + 1) => simp [sseLoop, hstep]

/-- A line whose handling emits nothing, keeps the state and does not
break can be removed from (or inserted into) an uncanceled stream
without changing the loop's outcome. -/
theorem sseLoop_skip {L σ : Type} (step : L → σ → List String × σ × Bool) (m : L)
    (hm : ∀ st, step m st = ([], st, false)) :
    ∀ (pre post : List L) (st : σ),
      sseLoop step none (pre ++ m :: post) st = sseLoop step none (pre ++ post) st := by
  intro pre
  induction pre with
  | nil =>
    intro post st
    simp only [List.nil_append]
    rw [sseLoop_cons_false step none m post st [] st (hm st) (by simp)]
    simp
  | cons l pre ih =>
    intro post st
    rcases h : step l st with ⟨fs, st1, brk⟩
    cases brk
    · rw [List.cons_append, List.cons_append,
        sseLoop_cons_false step none l (pre ++ m :: post) st fs st1 h (by simp),
        sseLoop_cons_false step none l (pre ++ post) st fs st1 h (by simp)]
      simp [ih]
    · rw [List.cons_append, List.cons_append,
        sseLoop_cons_true step none l (pre ++ m :: post) st fs st1 h (by simp),
        sseLoop_cons_true step none l (pre ++ post) st fs st1 h (by simp)]

/-- Every fragment the loop forwards satisfies `P` provided every line's
handling only emits fragments satisfying `P`. -/
theorem sseLoop_all {L σ : Type} (step : L → σ → List String × σ × Bool)
    (P : String → Bool) (c : Option Nat) (ls : List L) (st : σ)
    (hstep : ∀ l ∈ ls, ∀ st, ((step l st).1).all P = true) :
    ((sseLoop step c ls st).frags).all P = true := by
  induction ls generalizing c st with
  | nil => simp [sseLoop_nil]
  | cons l ls ih =>
    by_cases hc : c = some 0
    · subst hc; simp [sseLoop_some_zero]
    · rcases h : step l st with ⟨fs, st1, brk⟩
      have hl := hstep l (List.mem_cons_self l ls) st
      rw [h] at hl
      cases brk
      · rw [sseLoop_cons_false step c l ls st fs st1 h hc]
        have h2 := ih (c.map (· - 1)) st1
          (fun x hx st2 => hstep x (List.mem_cons_of_mem l hx) st2)
        simp only at hl
        simp [List.all_append, hl, h2]
      · rw [sseLoop_cons_true step c l ls st fs st1 h hc]
        exact hl

/-- When the parser would process the first `i` lines without breaking,
setting the cancellation signal to fire at iteration `i` makes the loop
forward exactly the fragments of those `i` lines and exit `canceled`. -/
theorem sseLoop_cancel {L σ : Type} (step : L → σ → List String × σ × Bool) :
    ∀ (i : Nat) (ls : List L) (st : σ), i < ls.length →
      (sseLoop step none (ls.take i) st).exit = .finished →
      sseLoop step (some i) ls st =
        ⟨(sseLoop step none (ls.take i) st).frags,
         (sseLoop step none (ls.take i) st).st, .canceled⟩ := by
  intro i
  induction i with
  | zero =>
    intro ls st hlen hfin
    match ls with
    | [] => simp at hlen
    | l :: ls => simp [sseLoop_some_zero, sseLoop_nil]
  | succ i ih =>
    intro ls st hlen hfin
    match ls with
    | [] => simp at hlen
    | l :: ls =>
      rcases h : step l st with ⟨fs, st1, brk⟩
      have htake : (l :: ls).take (i + 1) = l :: ls.take i := rfl
      cases brk
      · rw [htake, sseLoop_cons_false step none l (ls.take i) st fs st1 h (by simp)] at hfin ⊢
        simp only [Option.map_none'] at hfin ⊢
        have hlen' : i < ls.length := by
          simpa [Nat.succ_lt_succ_iff] using hlen
        rw [sseLoop_cons_false step (some (i + 1)) l ls st fs st1 h (by simp)]
        simp only [Option.map_some', Nat.add_sub_cancel]
        rw [ih ls st1 hlen' hfin]
      · rw [htake, sseLoop_cons_true step none l (ls.take i) st fs st1 h (by simp)] at hfin
        simp at hfin

/-! ## Helper lemmas about the Gemini thinking-span rendering -/

theorem geminiExtract_render (ps : List geminiPart) :
    geminiExtractParts ps false = geminiSendRender ps ∧
    geminiExtractParts ps true = geminiSendRenderThink ps := by
  induction ps with
  | nil => exact ⟨rfl, rfl⟩
  | cons p ps ih =>
    rcases ih with ⟨ih0, ih1⟩
    constructor
    · cases hth : p.thought with
      | some t => simp [geminiExtractParts, geminiSendRender, hth, ih1]
      | none =>
        by_cases htext : p.text = "" <;>
          simp [geminiExtractParts, geminiSendRender, hth, htext, ih0]
    · cases hth : p.thought with
      | some t => simp [geminiExtractParts, geminiSendRenderThink, hth, ih1]
      | none =>
        by_cases htext : p.text = "" <;>
          simp [geminiExtractParts, geminiSendRenderThink, hth, htext, ih0, ih1]

theorem geminiStreamParts_append (a b : List geminiPart) (t : Bool) :
    geminiStreamParts (a ++ b) t =
      ((geminiStreamParts a t).1 ++ (geminiStreamParts b (geminiStreamParts a t).2).1,
       (geminiStreamParts b (geminiStreamParts a t).2).2) := by
  induction a generalizing t with
  | nil => simp [geminiStreamParts]
  | cons p a ih =>
    cases hth : p.thought with
    | some t' => simp [geminiStreamParts, hth, ih]
    | none =>
      by_cases htext : p.text = "" <;> simp [geminiStreamParts, hth, htext, ih]

theorem geminiStreamParts_render (ps : List geminiPart) :
    (geminiStreamParts ps false).1 ++
        (if (geminiStreamParts ps false).2 then ["\n</thinking>\n\n"] else []) =
      geminiStreamRender ps ∧
    (geminiStreamParts ps true).1 ++
        (if (geminiStreamParts ps true).2 then ["\n</thinking>\n\n"] else []) =
      geminiStreamRenderThink ps := by
  induction ps with
  | nil => exact ⟨rfl, rfl⟩
  | cons p ps ih =>
    rcases ih with ⟨ih0, ih1⟩
    constructor
    · cases hth : p.thought with
      | some t => simp [geminiStreamParts, geminiStreamRender, hth, ih1]
      | none =>
        by_cases htext : p.text = "" <;>
          simp [geminiStreamParts, geminiStreamRender, hth, htext, ih0]
    · cases hth : p.thought with
      | some t => simp [geminiStreamParts, geminiStreamRenderThink, hth, ih1]
      | none =>
        by_cases htext : p.text = "" <;>
          simp [geminiStreamParts, geminiStreamRenderThink, hth, htext, ih0, ih1]

theorem geminiStreamStep_eq (l : SSELine geminiResponse) (st : Bool × List geminiWeb) :
    geminiStreamStep l st =
      ((geminiStreamParts (geminiLineParts l) st.1).1,
       ((geminiStreamParts (geminiLineParts l) st.1).2, st.2 ++ geminiLineGround l),
       false) := by
  match l with
  | .blank => simp [geminiStreamStep, geminiLineParts, geminiLineGround, geminiStreamParts]
  | .comment => simp [geminiStreamStep, geminiLineParts, geminiLineGround, geminiStreamParts]
  | .eventLine t => simp [geminiStreamStep, geminiLineParts, geminiLineGround, geminiStreamParts]
  | .other => simp [geminiStreamStep, geminiLineParts, geminiLineGround, geminiStreamParts]
  | .dataLine .done => simp [geminiStreamStep, geminiLineParts, geminiLineGround, geminiStreamParts]
  | .dataLine .malformed =>
    simp [geminiStreamStep, geminiLineParts, geminiLineGround, geminiStreamParts]
  | .dataLine (.chunk r) =>
    match hr : r.candidates with
    | [] => simp [geminiStreamStep, geminiLineParts, geminiLineGround, geminiStreamParts, hr]
    | cand :: rest =>
      cases hm : cand.groundingMetadata <;>
        simp [geminiStreamStep, geminiLineParts, geminiLineGround, hr, hm]

theorem gemini_loop (lines : List (SSELine geminiResponse)) :
    ∀ (think : Bool) (ground : List geminiWeb),
      sseLoop geminiStreamStep none lines (think, ground) =
        ⟨(geminiStreamParts (geminiFlattenParts lines) think).1,
         ((geminiStreamParts (geminiFlattenParts lines) think).2,
          ground ++ geminiCollectGround lines),
         .finished⟩ := by
  induction lines with
  | nil =>
    intro think ground
    simp [sseLoop_nil, geminiFlattenParts, geminiStreamParts, geminiCollectGround]
  | cons l ls ih =>
    intro think ground
    rw [sseLoop_cons_false geminiStreamStep none l ls (think, ground)
        (geminiStreamParts (geminiLineParts l) think).1
        ((geminiStreamParts (geminiLineParts l) think).2, ground ++ geminiLineGround l)
        (geminiStreamStep_eq l (think, ground)) (by simp)]
    simp only [Option.map_none']
    rw [ih (geminiStreamParts (geminiLineParts l) think).2 (ground ++ geminiLineGround l)]
    simp [geminiFlattenParts, geminiCollectGround, geminiStreamParts_append]

/-! ## Helper lemmas about the Anthropic system extraction -/

theorem getLastD_cons {α : Type} (l : List α) :
    ∀ (a d : α), (((a :: l).getLast?).getD d) = ((l.getLast?).getD a) := by
  induction l with
  | nil => intro a d; rfl
  | cons b l ih =>
    intro a d
    rw [List.getLast?_cons_cons, ih b d, ih b a]

theorem anthropicExtract_system (msgs : List Message) :
    ∀ (sys : String), (anthropicExtract msgs sys).1 = lastSystemContent msgs sys := by
  induction msgs with
  | nil => intro sys; rfl
  | cons m msgs ih =>
    intro sys
    by_cases hrole : m.role = RoleSystem
    · rw [show anthropicExtract (m :: msgs) sys = anthropicExtract msgs m.content by
        simp [anthropicExtract, hrole]]
      rw [ih m.content]
      unfold lastSystemContent
      rw [show (m :: msgs).filter (fun x => x.role = RoleSystem) =
          m :: msgs.filter (fun x => x.role = RoleSystem) by simp [List.filter, hrole]]
      rw [List.map_cons, getLastD_cons]
    · have hstep : (anthropicExtract (m :: msgs) sys).1 = (anthropicExtract msgs sys).1 := by
        simp [anthropicExtract, hrole]
      rw [hstep, ih sys]
      unfold lastSystemContent
      rw [show (m :: msgs).filter (fun x => x.role = RoleSystem) =
          msgs.filter (fun x => x.role = RoleSystem) by simp [List.filter, hrole]]

/-! ## Claims -/

/-- C3 counterexample: with two system messages "A" then "B", both the
Send-shaped and the Stream-shaped wire request carry `system = "B"` —
the overwrite keeps only the last one, not the in-order concatenation
"AB" the claim asserts. -/
theorem C3_counterexample :
    (Anthropic.buildRequest
        ⟨"m", [⟨"system", "A"⟩, ⟨"system", "B"⟩, ⟨"user", "hi"⟩], 0, 0, false⟩ false).system
      = "B" ∧
    (Anthropic.buildRequest
        ⟨"m", [⟨"system", "A"⟩, ⟨"system", "B"⟩, ⟨"user", "hi"⟩], 0, 0, false⟩ true).system
      = "B" ∧
    ("B" : String) ≠ "A" ++ "B" := by
  refine ⟨by decide, by decide, by decide⟩

/-- C3 (amended): in both Send and Stream the wire request's top-level
`system` field is the content of the LAST system-role message of the
ChatRequest (empty when there is none) — last write wins, not
concatenation. -/
theorem C3_last_system_wins (req : ChatRequest) (stream : Bool) :
    (Anthropic.buildRequest req stream).system = lastSystemContent req.messages "" := by
  simp [Anthropic.buildRequest, anthropicExtract_system]

/-- C4: with an empty API key every Send and Stream of all three
adapters returns `ErrNoAPIKey`, forwards no fragment, and issues no wire
request (`issued = none` — the failure precedes any network I/O). -/
theorem C4_missing_credential (req : ChatRequest) :
    (∀ w : SendWire openAIResponse,
      OpenAI.Send ⟨""⟩ req w = ⟨none, .fail .noAPIKey⟩) ∧
    (∀ w : StreamWire (SSELine openAIStreamChunk),
      OpenAI.Stream ⟨""⟩ req w = ⟨none, [], .fail .noAPIKey⟩) ∧
    (∀ w : SendWire anthropicResponse,
      Anthropic.Send ⟨""⟩ req w = ⟨none, .fail .noAPIKey⟩) ∧
    (∀ w : StreamWire (SSELine anthropicStreamEvent),
      Anthropic.Stream ⟨""⟩ req w = ⟨none, [], .fail .noAPIKey⟩) ∧
    (∀ (s t : Bool) (w : SendWire geminiResponse),
      Gemini.Send ⟨"", s, t⟩ req w = ⟨none, .fail .noAPIKey⟩) ∧
    (∀ (s t : Bool) (w : StreamWire (SSELine geminiResponse)),
      Gemini.Stream ⟨"", s, t⟩ req w = ⟨none, [], .fail .noAPIKey⟩) := by
  refine ⟨fun w => ?_, fun w => ?_, fun w => ?_, fun w => ?_,
    fun s t w => ?_, fun s t w => ?_⟩ <;>
      simp [OpenAI.Send, OpenAI.Stream, Anthropic.Send, Anthropic.Stream,
        Gemini.Send, Gemini.Stream]

/-- C7: whenever an HTTP exchange reaches a 429 status (non-empty key,
`client.Do` succeeded, and for Send the body read succeeded), every Send
and Stream of all three adapters returns `ErrRateLimited`, for every
possible body decoding — the status is dispatched before the body is
parsed — and the streams forward no fragment. -/
theorem C7_rate_limited :
    (∀ (k : String), k ≠ "" → ∀ (req : ChatRequest) (d : Option openAIResponse)
        (e : Option String),
      (OpenAI.Send ⟨k⟩ req ⟨.ok, false, 429, d, e⟩).result = .fail .rateLimited) ∧
    (∀ (k : String), k ≠ "" → ∀ (req : ChatRequest) (e : Option String)
        (ls : List (SSELine openAIStreamChunk)) (c : Option Nat) (re : Bool),
      OpenAI.Stream ⟨k⟩ req ⟨.ok, 429, e, ls, c, re⟩ =
        ⟨some (OpenAI.buildRequest req true), [], .fail .rateLimited⟩) ∧
    (∀ (k : String), k ≠ "" → ∀ (req : ChatRequest) (d : Option anthropicResponse)
        (e : Option String),
      (Anthropic.Send ⟨k⟩ req ⟨.ok, false, 429, d, e⟩).result = .fail .rateLimited) ∧
    (∀ (k : String), k ≠ "" → ∀ (req : ChatRequest) (e : Option String)
        (ls : List (SSELine anthropicStreamEvent)) (c : Option Nat) (re : Bool),
      Anthropic.Stream ⟨k⟩ req ⟨.ok, 429, e, ls, c, re⟩ =
        ⟨some (Anthropic.buildRequest req true), [], .fail .rateLimited⟩) ∧
    (∀ (k : String), k ≠ "" → ∀ (s t : Bool) (req : ChatRequest)
        (d : Option geminiResponse) (e : Option String),
      (Gemini.Send ⟨k, s, t⟩ req ⟨.ok, false, 429, d, e⟩).result = .fail .rateLimited) ∧
    (∀ (k : String), k ≠ "" → ∀ (s t : Bool) (req : ChatRequest) (e : Option String)
        (ls : List (SSELine geminiResponse)) (c : Option Nat) (re : Bool),
      Gemini.Stream ⟨k, s, t⟩ req ⟨.ok, 429, e, ls, c, re⟩ =
        ⟨some (Gemini.buildRequest ⟨k, s, t⟩ req), [], .fail .rateLimited⟩) := by
  refine ⟨fun k hk req d e => ?_, fun k hk req e ls c re => ?_,
    fun k hk req d e => ?_, fun k hk req e ls c re => ?_,
    fun k hk s t req d e => ?_, fun k hk s t req e ls c re => ?_⟩ <;>
      simp [OpenAI.Send, OpenAI.Stream, Anthropic.Send, Anthropic.Stream,
        Gemini.Send, Gemini.Stream, hk]

/-- Witness for C7 at concrete inputs: each of the six 429 cases at an
explicit call. -/
theorem C7_witness :
    (OpenAI.Send ⟨"k"⟩ ⟨"m", [], 0, 0, false⟩ ⟨.ok, false, 429, none, none⟩).result
        = .fail .rateLimited ∧
    OpenAI.Stream ⟨"k"⟩ ⟨"m", [], 0, 0, false⟩ ⟨.ok, 429, none, [], none, false⟩ =
        ⟨some (OpenAI.buildRequest ⟨"m", [], 0, 0, false⟩ true), [], .fail .rateLimited⟩ ∧
    (Anthropic.Send ⟨"k"⟩ ⟨"m", [], 0, 0, false⟩ ⟨.ok, false, 429, none, none⟩).result
        = .fail .rateLimited ∧
    Anthropic.Stream ⟨"k"⟩ ⟨"m", [], 0, 0, false⟩ ⟨.ok, 429, none, [], none, false⟩ =
        ⟨some (Anthropic.buildRequest ⟨"m", [], 0, 0, false⟩ true), [], .fail .rateLimited⟩ ∧
    (Gemini.Send ⟨"k", false, false⟩ ⟨"m", [], 0, 0, false⟩ ⟨.ok, false, 429, none, none⟩).result
        = .fail .rateLimited ∧
    Gemini.Stream ⟨"k", false, false⟩ ⟨"m", [], 0, 0, false⟩ ⟨.ok, 429, none, [], none, false⟩ =
        ⟨some (Gemini.buildRequest ⟨"k", false, false⟩ ⟨"m", [], 0, 0, false⟩), [],
         .fail .rateLimited⟩ := by
  have hk : ("k" : String) ≠ "" := by decide
  exact ⟨C7_rate_limited.1 "k" hk _ none none,
    C7_rate_limited.2.1 "k" hk _ none [] none false,
    C7_rate_limited.2.2.1 "k" hk _ none none,
    C7_rate_limited.2.2.2.1 "k" hk _ none [] none false,
    C7_rate_limited.2.2.2.2.1 "k" hk false false _ none none,
    C7_rate_limited.2.2.2.2.2 "k" hk false false _ none [] none false⟩

/-- C9: with thinking enabled, the built Gemini request carries a
thinkingConfig exactly for models matching a thinking-capable pattern:
the named level "medium" when the model name contains "gemini-3", the
8192-token budget for the older thinking-capable patterns, and no
thinkingConfig for models matching no pattern. -/
theorem C9_thinking_config (g : Gemini) (req : ChatRequest)
    (h : g.enableThought = true) :
    thinkingConfigOf (Gemini.buildRequest g req) =
      (if isThinkingModel req.model then
        (if isGemini3Model req.model then some ⟨0, "medium"⟩ else some ⟨8192, ""⟩)
       else none) := by
  by_cases ht : isThinkingModel req.model = true
  · by_cases h3 : isGemini3Model req.model = true <;>
      simp [Gemini.buildRequest, thinkingConfigOf, h, ht, h3]
  · by_cases hT : req.temperature > 0 <;> by_cases hM : req.maxTokens > 0 <;>
      simp [Gemini.buildRequest, thinkingConfigOf, h, ht, hT, hM]

/-- Witness for C9: a Gemini 2.5 name gets the numeric budget, a
Gemini 3 name gets the named level, and a non-thinking name gets no
thinkingConfig. -/
theorem C9_witness :
    thinkingConfigOf
        (Gemini.buildRequest ⟨"k", false, true⟩ ⟨"gemini-2.5-pro", [], 0, 0, false⟩)
      = some ⟨8192, ""⟩ ∧
    thinkingConfigOf
        (Gemini.buildRequest ⟨"k", false, true⟩ ⟨"gemini-3-pro-preview", [], 0, 0, false⟩)
      = some ⟨0, "medium"⟩ ∧
    thinkingConfigOf
        (Gemini.buildRequest ⟨"k", false, true⟩ ⟨"gpt-4o", [], 0, 0, false⟩)
      = none := by
  refine ⟨?_, ?_, ?_⟩
  · rw [C9_thinking_config ⟨"k", false, true⟩ ⟨"gemini-2.5-pro", [], 0, 0, false⟩ rfl]
    decide
  · rw [C9_thinking_config ⟨"k", false, true⟩ ⟨"gemini-3-pro-preview", [], 0, 0, false⟩ rfl]
    decide
  · rw [C9_thinking_config ⟨"k", false, true⟩ ⟨"gpt-4o", [], 0, 0, false⟩ rfl]
    decide

/-- C10: every successful Anthropic Send reports a Usage whose total is
computed as the sum of the vendor-reported input and output counts. -/
theorem C10_total_is_sum (a : Anthropic) (req : ChatRequest) (w : SendWire anthropicResponse)
    (resp : ChatResponse) (h : (Anthropic.Send a req w).result = .ok resp) :
    resp.usage.totalTokens = resp.usage.promptTokens + resp.usage.completionTokens := by
  simp only [Anthropic.Send] at h
  repeat' split at h
  all_goals simp_all
  subst h
  rfl

/-- Witness for C10: a concrete successful Send reporting 3 input and 4
output tokens yields total 7 = 3 + 4. -/
theorem C10_witness :
    (Anthropic.Send ⟨"k"⟩ ⟨"m", [], 0, 0, false⟩
        ⟨.ok, false, 200, some ⟨"mdl", [⟨"text", "hi"⟩], "stop", ⟨3, 4⟩⟩, none⟩).result
      = .ok ⟨"hi", "mdl", "stop", ⟨3, 4, 7⟩⟩ ∧
    (⟨"hi", "mdl", "stop", ⟨3, 4, 7⟩⟩ : ChatResponse).usage.totalTokens =
      (⟨"hi", "mdl", "stop", ⟨3, 4, 7⟩⟩ : ChatResponse).usage.promptTokens +
        (⟨"hi", "mdl", "stop", ⟨3, 4, 7⟩⟩ : ChatResponse).usage.completionTokens := by
  have h : (Anthropic.Send ⟨"k"⟩ ⟨"m", [], 0, 0, false⟩
      ⟨.ok, false, 200, some ⟨"mdl", [⟨"text", "hi"⟩], "stop", ⟨3, 4⟩⟩, none⟩).result
        = .ok ⟨"hi", "mdl", "stop", ⟨3, 4, 7⟩⟩ := by decide
  exact ⟨h, C10_total_is_sum _ _ _ _ h⟩

/-- C1 counterexample: a 2xx Gemini response whose first candidate
interleaves thought and answer parts (thought "T1", answer "A1",
thought "T2", answer "A2") yields a content with TWO
`<thinking>` blocks interleaved with the answer text — not one block
ahead of the answer as the claim states. -/
theorem C1_counterexample :
    (Gemini.Send ⟨"k", false, false⟩ ⟨"m", [], 0, 0, false⟩
        ⟨.ok, false, 200,
         some ⟨[⟨⟨"model",
            [⟨"", some "T1"⟩, ⟨"A1", none⟩, ⟨"", some "T2"⟩, ⟨"A2", none⟩]⟩,
            "STOP", none⟩], none⟩,
         none⟩).result
      = .ok ⟨"<thinking>\nT1\n</thinking>\n\nA1<thinking>\nT2\n</thinking>\n\nA2",
             "m", "STOP", ⟨0, 0, 0⟩⟩ ∧
    countOccs "<thinking>".toList
        "<thinking>\nT1\n</thinking>\n\nA1<thinking>\nT2\n</thinking>\n\nA2".toList = 2 := by
  exact ⟨by decide, by decide⟩

/-- C1 (amended): for every 2xx Gemini Send response, the content is the
run-based rendering of the first candidate's parts: each MAXIMAL RUN of
consecutive thought parts is wrapped in its own `<thinking>\n` ...
`</thinking>\n\n` block in place (each thought text followed by a
newline), answer texts are written verbatim between the blocks, and a
trailing open block is closed at the end; in particular when no thought
part follows an answer part there is exactly one block, ahead of the
answer.  The Sources block follows the flattened content. -/
theorem C1_send_thinking_runs (req : ChatRequest) (s t : Bool) (parts : List geminiPart)
    (fr : String) (meta : Option geminiGroundingMetadata) (rest : List geminiCandidate)
    (u : Option geminiUsageMetadata) :
    Gemini.Send ⟨"k", s, t⟩ req
        ⟨.ok, false, 200, some ⟨⟨⟨"model", parts⟩, fr, meta⟩ :: rest, u⟩, none⟩ =
      ⟨some (Gemini.buildRequest ⟨"k", s, t⟩ req),
       .ok ⟨String.join (geminiSendRender parts) ++ geminiSourcesStr meta,
            req.model, fr, geminiUsageOf u⟩⟩ := by
  simp [Gemini.Send, (geminiExtract_render parts).1]

/-- C2 counterexample: for a data line carrying a thought part "T"
followed by an answer part "A", the fragment forwarded between the
thought text and the answer text is `"\n</thinking>\n\n"` (leading
newline); the marker `"</thinking>\n\n"` the claim names is never
forwarded at all. -/
theorem C2_counterexample :
    (Gemini.Stream ⟨"k", false, false⟩ ⟨"m", [], 0, 0, false⟩
        ⟨.ok, 200, none,
         [.dataLine (.chunk ⟨[⟨⟨"model", [⟨"", some "T"⟩, ⟨"A", none⟩]⟩, "", none⟩], none⟩)],
         none, false⟩).frags
      = ["<thinking>\n", "T", "\n</thinking>\n\n", "A"] ∧
    "</thinking>\n\n" ∉
      (Gemini.Stream ⟨"k", false, false⟩ ⟨"m", [], 0, 0, false⟩
        ⟨.ok, 200, none,
         [.dataLine (.chunk ⟨[⟨⟨"model", [⟨"", some "T"⟩, ⟨"A", none⟩]⟩, "", none⟩], none⟩)],
         none, false⟩).frags := by
  exact ⟨by decide, by decide⟩

/-- C2 (amended): for every sequence of lines, the uncanceled Gemini
stream forwards exactly the run-based rendering of the data lines'
(first-candidate) parts: the first thought part of each run forwards the
`<thinking>\n` marker before the thought text, thought texts are
forwarded verbatim thereafter, the first subsequent answer part forwards
the close marker `"\n</thinking>\n\n"` — WITH a leading newline — before
the answer text, and if the lines end while inside a thinking span the
same close marker is forwarded as a flush step; the buffered Sources
block follows. -/
theorem C2_stream_thinking_markers (req : ChatRequest) (s t : Bool)
    (ls : List (SSELine geminiResponse)) (re : Bool) :
    Gemini.Stream ⟨"k", s, t⟩ req ⟨.ok, 200, none, ls, none, re⟩ =
      ⟨some (Gemini.buildRequest ⟨"k", s, t⟩ req),
       geminiStreamRender (geminiFlattenParts ls) ++
         (if geminiCollectGround ls = [] then []
          else "\n\n---\n**Sources:**\n" :: (geminiCollectGround ls).map geminiSourceFrag),
       if re then .fail .streamFailed else .ok ()⟩ := by
  simp only [Gemini.Stream, gemini_loop ls false [], geminiFlushFrags]
  simp
  rw [← List.append_assoc, (geminiStreamParts_render (geminiFlattenParts ls)).1]

/-! ## Helper lemmas for fragment non-emptiness -/

theorem openAIStreamStep_nonempty (l : SSELine openAIStreamChunk) (st : Unit) :
    ((openAIStreamStep l st).1).all (fun f => f != "") = true := by
  match l with
  | .blank | .comment | .eventLine _ | .other | .dataLine .done | .dataLine .malformed => rfl
  | .dataLine (.chunk c) =>
    match hc : c.choices with
    | [] => simp [openAIStreamStep, hc]
    | ch :: rest =>
      by_cases h : ch.deltaContent = "" <;> simp [openAIStreamStep, hc, h]

theorem anthropicStreamStep_nonempty (l : SSELine anthropicStreamEvent)
    (hl : anthropicLineClean l = true) (st : Unit) :
    ((anthropicStreamStep l st).1).all (fun f => f != "") = true := by
  match l with
  | .blank | .comment | .other | .dataLine .done | .dataLine .malformed => rfl
  | .eventLine t => rfl
  | .dataLine (.chunk e) =>
    match hd : e.delta with
    | none => simp [anthropicStreamStep, hd]
    | some d =>
      by_cases hc : e.type = "content_block_delta" ∧ d.type = "text_delta"
      · have hne : ¬d.text = "" := by
          simp [anthropicLineClean, hd] at hl
          rcases hl with h1 | h2 | h3
          · exact absurd hc.1 h1
          · exact absurd hc.2 h2
          · exact h3
        simp [anthropicStreamStep, hd, hc, hne]
      · simp [anthropicStreamStep, hd, hc]

theorem geminiSourceFrag_ne (w : geminiWeb) : (geminiSourceFrag w != "") = true := by
  simp only [geminiSourceFrag, bne_iff_ne, ne_eq]
  intro h
  have hlen := congrArg String.length h
  have h1 : ("- [" : String).length = 3 := rfl
  have h2 : ("](" : String).length = 2 := rfl
  have h3 : (")\n" : String).length = 2 := rfl
  have h4 : ("" : String).length = 0 := rfl
  simp [String.length_append, h1, h2, h3, h4] at hlen

theorem geminiFlushFrags_nonempty (st : Bool × List geminiWeb) :
    ((geminiFlushFrags st).all (fun f => f != "")) = true := by
  rcases st with ⟨think, ground⟩
  have hsrc : ∀ w ∈ ground, ¬geminiSourceFrag w = "" := by
    intro w _
    simpa [bne_iff_ne] using geminiSourceFrag_ne w
  cases think <;> by_cases hg : ground = [] <;>
    simp_all [geminiFlushFrags, List.all_map, Function.comp]

theorem geminiStreamParts_nonempty (ps : List geminiPart) :
    ∀ (think : Bool), ps.all geminiPartClean = true →
      ((geminiStreamParts ps think).1).all (fun f => f != "") = true := by
  induction ps with
  | nil => intro think _; rfl
  | cons p ps ih =>
    intro think hclean
    rw [List.all_cons] at hclean
    rcases Bool.and_eq_true_iff.mp hclean with ⟨hp, hps⟩
    cases hth : p.thought with
    | some t =>
      have hne : ¬t = "" := by
        simp [geminiPartClean, hth] at hp
        exact hp
      cases think <;> simp [geminiStreamParts, hth, hne, ih true hps]
    | none =>
      by_cases htext : p.text = ""
      · simpa [geminiStreamParts, hth, htext] using ih think hps
      · cases think <;> simp [geminiStreamParts, hth, htext, ih false hps]

theorem geminiStreamStep_nonempty (l : SSELine geminiResponse)
    (hl : geminiLineClean l = true) (st : Bool × List geminiWeb) :
    ((geminiStreamStep l st).1).all (fun f => f != "") = true := by
  rw [geminiStreamStep_eq l st]
  exact geminiStreamParts_nonempty (geminiLineParts l) st.1 hl

/-- C5 counterexample: an Anthropic `content_block_delta` event whose
`text_delta` carries empty text makes the stream invoke the callback
with the empty fragment `""` and still return success — refuting "only
with non-empty text fragments". -/
theorem C5_counterexample :
    (Anthropic.Stream ⟨"k"⟩ ⟨"m", [], 0, 0, false⟩
        ⟨.ok, 200, none,
         [.dataLine (.chunk ⟨"content_block_delta", some ⟨"text_delta", ""⟩⟩)],
         none, false⟩).frags = [""] ∧
    (Anthropic.Stream ⟨"k"⟩ ⟨"m", [], 0, 0, false⟩
        ⟨.ok, 200, none,
         [.dataLine (.chunk ⟨"content_block_delta", some ⟨"text_delta", ""⟩⟩)],
         none, false⟩).result = .ok () ∧
    ¬(∀ f ∈ (Anthropic.Stream ⟨"k"⟩ ⟨"m", [], 0, 0, false⟩
        ⟨.ok, 200, none,
         [.dataLine (.chunk ⟨"content_block_delta", some ⟨"text_delta", ""⟩⟩)],
         none, false⟩).frags, f ≠ "") := by
  exact ⟨by decide, by decide, by decide⟩

/-- C5 (amended): fragments are delivered in emission order before the
call returns (the model returns them as an ordered list); OpenAI's
fragments are always non-empty; Anthropic's are non-empty provided every
text-typed delta in the stream carries non-empty text (the adapter
forwards delta text verbatim, including empty text), and Gemini's are
non-empty provided every thought part carries non-empty text (thought
text is forwarded verbatim, including empty text). -/
theorem openAIStream_frags_cases (o : OpenAI) (req : ChatRequest)
    (w : StreamWire (SSELine openAIStreamChunk)) :
    (OpenAI.Stream o req w).frags = [] ∨
    (OpenAI.Stream o req w).frags = (sseLoop openAIStreamStep w.cancelAt w.lines ()).frags := by
  unfold OpenAI.Stream
  by_cases hk : o.apiKey = ""
  · exact Or.inl (by simp [hk])
  · cases hdo : w.doResult with
    | failCanceled => exact Or.inl (by simp [hk, hdo])
    | failOther => exact Or.inl (by simp [hk, hdo])
    | ok =>
      by_cases h429 : w.status = 429
      · exact Or.inl (by simp [hk, hdo, h429])
      · by_cases h200 : w.status = 200
        · cases hexit : (sseLoop openAIStreamStep w.cancelAt w.lines ()).exit <;>
            exact Or.inr (by simp [hk, hdo, h429, h200, hexit])
        · exact Or.inl (by simp [hk, hdo, h429, h200])

theorem anthropicStream_frags_cases (a : Anthropic) (req : ChatRequest)
    (w : StreamWire (SSELine anthropicStreamEvent)) :
    (Anthropic.Stream a req w).frags = [] ∨
    (Anthropic.Stream a req w).frags =
      (sseLoop anthropicStreamStep w.cancelAt w.lines ()).frags := by
  unfold Anthropic.Stream
  by_cases hk : a.apiKey = ""
  · exact Or.inl (by simp [hk])
  · cases hdo : w.doResult with
    | failCanceled => exact Or.inl (by simp [hk, hdo])
    | failOther => exact Or.inl (by simp [hk, hdo])
    | ok =>
      by_cases h429 : w.status = 429
      · exact Or.inl (by simp [hk, hdo, h429])
      · by_cases h200 : w.status = 200
        · cases hexit : (sseLoop anthropicStreamStep w.cancelAt w.lines ()).exit <;>
            exact Or.inr (by simp [hk, hdo, h429, h200, hexit])
        · exact Or.inl (by simp [hk, hdo, h429, h200])

theorem geminiStream_frags_cases (g : Gemini) (req : ChatRequest)
    (w : StreamWire (SSELine geminiResponse)) :
    (Gemini.Stream g req w).frags = [] ∨
    (Gemini.Stream g req w).frags =
      (sseLoop geminiStreamStep w.cancelAt w.lines (false, [])).frags ∨
    (Gemini.Stream g req w).frags =
      (sseLoop geminiStreamStep w.cancelAt w.lines (false, [])).frags ++
        geminiFlushFrags (sseLoop geminiStreamStep w.cancelAt w.lines (false, [])).st := by
  unfold Gemini.Stream
  by_cases hk : g.apiKey = ""
  · exact Or.inl (by simp [hk])
  · cases hdo : w.doResult with
    | failCanceled => exact Or.inl (by simp [hk, hdo])
    | failOther => exact Or.inl (by simp [hk, hdo])
    | ok =>
      by_cases h429 : w.status = 429
      · exact Or.inl (by simp [hk, hdo, h429])
      · by_cases h200 : w.status = 200
        · cases hexit : (sseLoop geminiStreamStep w.cancelAt w.lines (false, [])).exit
          · exact Or.inr (Or.inr (by simp [hk, hdo, h429, h200, hexit]))
          · exact Or.inr (Or.inr (by simp [hk, hdo, h429, h200, hexit]))
          · exact Or.inr (Or.inl (by simp [hk, hdo, h429, h200, hexit]))
        · exact Or.inl (by simp [hk, hdo, h429, h200])

/-- C5 (amended): fragments are delivered in emission order before the
call returns (the model returns them as an ordered list); OpenAI's
fragments are always non-empty; Anthropic's are non-empty provided every
text-typed delta in the stream carries non-empty text (the adapter
forwards delta text verbatim, including empty text), and Gemini's are
non-empty provided every thought part carries non-empty text (thought
text is forwarded verbatim, including empty text). -/
theorem C5_fragment_nonempty :
    (∀ (o : OpenAI) (req : ChatRequest) (w : StreamWire (SSELine openAIStreamChunk)),
      ((OpenAI.Stream o req w).frags).all (fun f => f != "") = true) ∧
    (∀ (a : Anthropic) (req : ChatRequest) (w : StreamWire (SSELine anthropicStreamEvent)),
      anthropicCleanLines w.lines = true →
      ((Anthropic.Stream a req w).frags).all (fun f => f != "") = true) ∧
    (∀ (g : Gemini) (req : ChatRequest) (w : StreamWire (SSELine geminiResponse)),
      geminiCleanLines w.lines = true →
      ((Gemini.Stream g req w).frags).all (fun f => f != "") = true) := by
  refine ⟨?_, ?_, ?_⟩
  · intro o req w
    rcases openAIStream_frags_cases o req w with h | h <;> rw [h]
    · rfl
    · exact sseLoop_all openAIStreamStep (fun f => f != "") w.cancelAt w.lines ()
        (fun l _ st => openAIStreamStep_nonempty l st)
  · intro a req w hcl
    simp only [anthropicCleanLines, List.all_eq_true] at hcl
    rcases anthropicStream_frags_cases a req w with h | h <;> rw [h]
    · rfl
    · exact sseLoop_all anthropicStreamStep (fun f => f != "") w.cancelAt w.lines ()
        (fun l hl st => anthropicStreamStep_nonempty l (hcl l hl) st)
  · intro g req w hcl
    simp only [geminiCleanLines, List.all_eq_true] at hcl
    have hloop := sseLoop_all geminiStreamStep (fun f => f != "") w.cancelAt w.lines (false, [])
      (fun l hl st => geminiStreamStep_nonempty l (hcl l hl) st)
    rcases geminiStream_frags_cases g req w with h | h | h <;> rw [h]
    · rfl
    · exact hloop
    · simp only [List.all_append, Bool.and_eq_true]
      exact ⟨hloop, geminiFlushFrags_nonempty _⟩

/-- Witness for C5 at concrete inputs: all three conjuncts applied to
streams with clean, non-empty deltas. -/
theorem C5_witness :
    ((OpenAI.Stream ⟨"k"⟩ ⟨"m", [], 0, 0, false⟩
        ⟨.ok, 200, none, [.dataLine (.chunk ⟨[⟨"Hi", ""⟩]⟩)], none, false⟩).frags).all
        (fun f => f != "") = true ∧
    ((Anthropic.Stream ⟨"k"⟩ ⟨"m", [], 0, 0, false⟩
        ⟨.ok, 200, none,
         [.dataLine (.chunk ⟨"content_block_delta", some ⟨"text_delta", "Hi"⟩⟩)],
         none, false⟩).frags).all (fun f => f != "") = true ∧
    ((Gemini.Stream ⟨"k", false, false⟩ ⟨"m", [], 0, 0, false⟩
        ⟨.ok, 200, none,
         [.dataLine (.chunk ⟨[⟨⟨"model", [⟨"", some "T"⟩, ⟨"A", none⟩]⟩, "", none⟩], none⟩)],
         none, false⟩).frags).all (fun f => f != "") = true := by
  exact ⟨C5_fragment_nonempty.1 _ _ _,
    C5_fragment_nonempty.2.1 _ _ _ (by decide),
    C5_fragment_nonempty.2.2 _ _ _ (by decide)⟩

/-- C6: cancellation.  First three conjuncts: when the context is
already canceled when the HTTP call is issued (`client.Do` fails with
`ctx.Err() != nil`), each adapter's Stream returns `ErrContextCanceled`
with zero fragments — never a partial sequence followed by success.
Last three conjuncts: when the cancellation signal becomes observable at
loop iteration `i` of a healthy 2xx stream (and the parser would reach
that iteration without breaking), the call forwards exactly the
fragments of the first `i` lines, forwards nothing afterwards (for
Gemini not even the close-marker/Sources flush), and returns
`ErrContextCanceled` instead of success. -/
theorem C6_cancellation :
    (∀ (k : String), k ≠ "" → ∀ (req : ChatRequest) (status : Nat) (e : Option String)
        (ls : List (SSELine openAIStreamChunk)) (c : Option Nat) (re : Bool),
      OpenAI.Stream ⟨k⟩ req ⟨.failCanceled, status, e, ls, c, re⟩ =
        ⟨some (OpenAI.buildRequest req true), [], .fail .contextCanceled⟩) ∧
    (∀ (k : String), k ≠ "" → ∀ (req : ChatRequest) (status : Nat) (e : Option String)
        (ls : List (SSELine anthropicStreamEvent)) (c : Option Nat) (re : Bool),
      Anthropic.Stream ⟨k⟩ req ⟨.failCanceled, status, e, ls, c, re⟩ =
        ⟨some (Anthropic.buildRequest req true), [], .fail .contextCanceled⟩) ∧
    (∀ (k : String), k ≠ "" → ∀ (s t : Bool) (req : ChatRequest) (status : Nat)
        (e : Option String) (ls : List (SSELine geminiResponse)) (c : Option Nat) (re : Bool),
      Gemini.Stream ⟨k, s, t⟩ req ⟨.failCanceled, status, e, ls, c, re⟩ =
        ⟨some (Gemini.buildRequest ⟨k, s, t⟩ req), [], .fail .contextCanceled⟩) ∧
    (∀ (k : String), k ≠ "" → ∀ (req : ChatRequest) (e : Option String)
        (ls : List (SSELine openAIStreamChunk)) (i : Nat) (re : Bool),
      i < ls.length →
      (sseLoop openAIStreamStep none (ls.take i) ()).exit = .finished →
      OpenAI.Stream ⟨k⟩ req ⟨.ok, 200, e, ls, some i, re⟩ =
        ⟨some (OpenAI.buildRequest req true),
         (sseLoop openAIStreamStep none (ls.take i) ()).frags, .fail .contextCanceled⟩) ∧
    (∀ (k : String), k ≠ "" → ∀ (req : ChatRequest) (e : Option String)
        (ls : List (SSELine anthropicStreamEvent)) (i : Nat) (re : Bool),
      i < ls.length →
      (sseLoop anthropicStreamStep none (ls.take i) ()).exit = .finished →
      Anthropic.Stream ⟨k⟩ req ⟨.ok, 200, e, ls, some i, re⟩ =
        ⟨some (Anthropic.buildRequest req true),
         (sseLoop anthropicStreamStep none (ls.take i) ()).frags, .fail .contextCanceled⟩) ∧
    (∀ (k : String), k ≠ "" → ∀ (s t : Bool) (req : ChatRequest) (e : Option String)
        (ls : List (SSELine geminiResponse)) (i : Nat) (re : Bool),
      i < ls.length →
      (sseLoop geminiStreamStep none (ls.take i) (false, [])).exit = .finished →
      Gemini.Stream ⟨k, s, t⟩ req ⟨.ok, 200, e, ls, some i, re⟩ =
        ⟨some (Gemini.buildRequest ⟨k, s, t⟩ req),
         (sseLoop geminiStreamStep none (ls.take i) (false, [])).frags,
         .fail .contextCanceled⟩) := by
  refine ⟨fun k hk req status e ls c re => by simp [OpenAI.Stream, hk],
    fun k hk req status e ls c re => by simp [Anthropic.Stream, hk],
    fun k hk s t req status e ls c re => by simp [Gemini.Stream, hk],
    fun k hk req e ls i re hlen hfin => ?_,
    fun k hk req e ls i re hlen hfin => ?_,
    fun k hk s t req e ls i re hlen hfin => ?_⟩
  · have hc := sseLoop_cancel openAIStreamStep i ls () hlen hfin
    simp [OpenAI.Stream, hk, hc]
  · have hc := sseLoop_cancel anthropicStreamStep i ls () hlen hfin
    simp [Anthropic.Stream, hk, hc]
  · have hc := sseLoop_cancel geminiStreamStep i ls (false, []) hlen hfin
    simp [Gemini.Stream, hk, hc]

/-- Witness for C6 at concrete inputs: cancellation before the call for
each adapter, and mid-stream cancellation at iteration 1 of a two-line
stream — only the first line's fragment is forwarded and the result is
`ErrContextCanceled`. -/
theorem C6_witness :
    OpenAI.Stream ⟨"k"⟩ ⟨"m", [], 0, 0, false⟩ ⟨.failCanceled, 200, none, [], none, false⟩ =
      ⟨some (OpenAI.buildRequest ⟨"m", [], 0, 0, false⟩ true), [], .fail .contextCanceled⟩ ∧
    Anthropic.Stream ⟨"k"⟩ ⟨"m", [], 0, 0, false⟩ ⟨.failCanceled, 200, none, [], none, false⟩ =
      ⟨some (Anthropic.buildRequest ⟨"m", [], 0, 0, false⟩ true), [], .fail .contextCanceled⟩ ∧
    Gemini.Stream ⟨"k", false, false⟩ ⟨"m", [], 0, 0, false⟩
        ⟨.failCanceled, 200, none, [], none, false⟩ =
      ⟨some (Gemini.buildRequest ⟨"k", false, false⟩ ⟨"m", [], 0, 0, false⟩), [],
       .fail .contextCanceled⟩ ∧
    (OpenAI.Stream ⟨"k"⟩ ⟨"m", [], 0, 0, false⟩
        ⟨.ok, 200, none,
         [.dataLine (.chunk ⟨[⟨"Hi", ""⟩]⟩), .dataLine (.chunk ⟨[⟨"gone", ""⟩]⟩)],
         some 1, false⟩).frags = ["Hi"] ∧
    (OpenAI.Stream ⟨"k"⟩ ⟨"m", [], 0, 0, false⟩
        ⟨.ok, 200, none,
         [.dataLine (.chunk ⟨[⟨"Hi", ""⟩]⟩), .dataLine (.chunk ⟨[⟨"gone", ""⟩]⟩)],
         some 1, false⟩).result = .fail .contextCanceled ∧
    (Anthropic.Stream ⟨"k"⟩ ⟨"m", [], 0, 0, false⟩
        ⟨.ok, 200, none,
         [.dataLine (.chunk ⟨"content_block_delta", some ⟨"text_delta", "Hi"⟩⟩), .blank],
         some 1, false⟩).frags = ["Hi"] ∧
    (Gemini.Stream ⟨"k", false, false⟩ ⟨"m", [], 0, 0, false⟩
        ⟨.ok, 200, none,
         [.dataLine (.chunk ⟨[⟨⟨"model", [⟨"", some "T"⟩]⟩, "", none⟩], none⟩), .blank],
         some 1, false⟩).frags = ["<thinking>\n", "T"] := by
  have h1 : ("k" : String) ≠ "" := by decide
  refine ⟨C6_cancellation.1 "k" h1 _ 200 none [] none false,
    C6_cancellation.2.1 "k" h1 _ 200 none [] none false,
    C6_cancellation.2.2.1 "k" h1 false false _ 200 none [] none false, ?_, ?_, ?_, ?_⟩
  · rw [C6_cancellation.2.2.2.1 "k" h1 _ none _ 1 false (by decide) (by decide)]
    decide
  · rw [C6_cancellation.2.2.2.1 "k" h1 _ none _ 1 false (by decide) (by decide)]
  · rw [C6_cancellation.2.2.2.2.1 "k" h1 _ none _ 1 false (by decide) (by decide)]
    decide
  · rw [C6_cancellation.2.2.2.2.2 "k" h1 false false _ none _ 1 false (by decide) (by decide)]
    decide

/-- C8: inserting a data line whose JSON payload fails to decode at any
position of an uncanceled stream leaves every adapter's entire Stream
output (fragments, issued request and result) unchanged — the line is
skipped, parsing continues, and the malformed chunk alone never turns
the call into a failure. -/
theorem C8_malformed_skipped :
    (∀ (o : OpenAI) (req : ChatRequest) (doR : DoOutcome) (status : Nat) (e : Option String)
        (re : Bool) (pre post : List (SSELine openAIStreamChunk)),
      OpenAI.Stream o req ⟨doR, status, e, pre ++ .dataLine .malformed :: post, none, re⟩ =
        OpenAI.Stream o req ⟨doR, status, e, pre ++ post, none, re⟩) ∧
    (∀ (a : Anthropic) (req : ChatRequest) (doR : DoOutcome) (status : Nat) (e : Option String)
        (re : Bool) (pre post : List (SSELine anthropicStreamEvent)),
      Anthropic.Stream a req ⟨doR, status, e, pre ++ .dataLine .malformed :: post, none, re⟩ =
        Anthropic.Stream a req ⟨doR, status, e, pre ++ post, none, re⟩) ∧
    (∀ (g : Gemini) (req : ChatRequest) (doR : DoOutcome) (status : Nat) (e : Option String)
        (re : Bool) (pre post : List (SSELine geminiResponse)),
      Gemini.Stream g req ⟨doR, status, e, pre ++ .dataLine .malformed :: post, none, re⟩ =
        Gemini.Stream g req ⟨doR, status, e, pre ++ post, none, re⟩) := by
  refine ⟨fun o req doR status e re pre post => ?_,
    fun a req doR status e re pre post => ?_,
    fun g req doR status e re pre post => ?_⟩
  · have hskip := sseLoop_skip openAIStreamStep (.dataLine .malformed) (fun st => rfl) pre post ()
    by_cases hk : o.apiKey = ""
    · simp [OpenAI.Stream, hk]
    · cases doR <;> simp [OpenAI.Stream, hk, hskip]
  · have hskip :=
      sseLoop_skip anthropicStreamStep (.dataLine .malformed) (fun st => rfl) pre post ()
    by_cases hk : a.apiKey = ""
    · simp [Anthropic.Stream, hk]
    · cases doR <;> simp [Anthropic.Stream, hk, hskip]
  · have hskip :=
      sseLoop_skip geminiStreamStep (.dataLine .malformed) (fun st => rfl) pre post (false, [])
    by_cases hk : g.apiKey = ""
    · simp [Gemini.Stream, hk]
    · cases doR <;> simp [Gemini.Stream, hk, hskip]
